import Mathlib

/-!
Shallow embedding of the noscript chat server (`src/chat/main.go`).

The program keeps a registry of per-connection buffered channels
(`App.chans`, a map of `chan []byte` with buffer `bufferSize`), a bounded
history of updates (`App.history`, at most `historyLimit` entries), and
broadcasts rendered HTML fragments to every registered channel with a
non-blocking send (`select`/`default`: a full channel is skipped).
Go strings are Lean `String`s; Go `len` on a string counts UTF-8 bytes,
modelled by `byteLen`; a Go channel of capacity `bufferSize` is a list of
pending payloads of length at most `bufferSize`.
The sequential semantics of the GET handler is modelled as an event trace
(`Ev`) plus explicit state passing.
-/

/-- Constant `historyLimit`: number of updates kept in history. -/
def historyLimit : Nat := 20

/-- Constant `maxMsgLen`: maximum raw message length in bytes. -/
def maxMsgLen : Nat := 1024

/-- Constant `bufferSize`: capacity of each per-connection channel. -/
def bufferSize : Nat := 5

/-- Go `len` of a string: the number of UTF-8 bytes. -/
def byteLen (s : String) : Nat := (s.data.map Char.utf8Size).sum

/-- `Update` record from the source: a timestamp string and a message string. -/
structure Update where
  timestamp : String
  message : String
deriving DecidableEq

/-- A registered connection channel: an identity (Go channels are distinct map
keys) and its buffered pending payloads (front = next to be received). -/
structure Conn where
  id : Nat
  buf : List String
deriving DecidableEq

/-- Default connection used with `List.getD`. -/
def defConn : Conn := { id := 0, buf := [] }

/-- The `App` state: the set of registered channels and the history slice. -/
structure App where
  chans : List Conn
  history : List Update
deriving DecidableEq

/-- The body of `App.append` at the history level:
`a.history = append(a.history, update)` followed by
`if len > historyLimit { a.history = a.history[len-historyLimit:] }`. -/
def pushHistory (h : List Update) (u : Update) : List Update :=
  let h2 := h ++ [u]
  if h2.length > historyLimit then h2.drop (h2.length - historyLimit) else h2

/-- `App.append`: append an `*Update` to the chat log. -/
def App.append (a : App) (u : Update) : App :=
  { a with history := pushHistory a.history u }

/-- The Go `select { case ch <- data: default: }` non-blocking send on a
channel with capacity `bufferSize`: enqueue when there is room, drop when
the buffer is full. -/
def trySend (buf : List String) (data : String) : List String :=
  if buf.length < bufferSize then buf ++ [data] else buf

/-- The fragment built by `sendCount`:
`fmt.Sprintf("<style>#nc::before{content:\"%d\"}</style>", len(a.chans))`. -/
def countData (n : Nat) : String :=
  "<style>#nc::before\x7bcontent:\"" ++ toString n ++ "\"\x7d</style>"

/-- `App.sendCount`: render the current channel count and attempt a
non-blocking send of it to every registered channel. -/
def App.sendCount (a : App) : App :=
  let data := countData a.chans.length
  { a with chans := a.chans.map (fun c => { c with buf := trySend c.buf data }) }

/-- The new-message fragment built by `send`:
`fmt.Sprintf("<div class=\"new\"><p>%s</p><time>%s</time></div>", msg, ts)`. -/
def renderNew (u : Update) : String :=
  "<div class=\"new\"><p>" ++ u.message ++ "</p><time>" ++ u.timestamp
    ++ "</time></div>"

/-- The history fragment built by `sendHistory`:
`fmt.Sprintf("<div><p>%s</p><time>%s</time></div>", msg, ts)`. -/
def renderHist (u : Update) : String :=
  "<div><p>" ++ u.message ++ "</p><time>" ++ u.timestamp ++ "</time></div>"

/-- `App.send`: append the update to the chat log, render it, then attempt a
non-blocking send of the rendered fragment to every registered channel. -/
def App.send (a : App) (u : Update) : App :=
  let a1 := a.append u
  let data := renderNew u
  { a1 with chans := a1.chans.map (fun c => { c with buf := trySend c.buf data }) }

/-- `App.sendHistory`: the fragments written to a client, in history order. -/
def App.sendHistory (a : App) : List String := a.history.map renderHist

/-- `App.addChan`: register a client channel. -/
def App.addChan (a : App) (c : Conn) : App :=
  { a with chans := a.chans ++ [c] }

/-- `App.removeChan`: delete a client channel from the registry (Go
`delete(a.chans, ch)`). -/
def App.removeChan (a : App) (cid : Nat) : App :=
  { a with chans := a.chans.filter (fun c => c.id ≠ cid) }

/-- Events of the sequential GET-handler trace. -/
inductive Ev where
  | mkChan : Ev
  | join : Ev
  | writeHead : Ev
  | writeFrag : String → Ev
  | flush : Ev
  | countBroadcast : Nat → Ev
  | leave : Ev
deriving DecidableEq

/-- Sequential model of `getHandler` up to entering the live loop, as the
source orders the steps: check the flusher, create the channel, `addChan`,
write `pageHead` (its error is ignored), write the history fragments
(`sendHistory`), and on success flush and `sendCount`.  `fail` gives the
index of the first history write that returns an error (`none`, or an index
past the end, means every write succeeds); on such an error the handler
returns and the deferred cleanup (`removeChan` then `sendCount`) runs. -/
def App.getHandlerOpen (a : App) (cid : Nat) (isFlusher : Bool)
    (fail : Option Nat) : List Ev × App :=
  if isFlusher then
    let a1 := a.addChan { id := cid, buf := [] }
    let frags := a1.sendHistory
    let failIdx := fail.getD frags.length
    if failIdx < frags.length then
      ([Ev.mkChan, Ev.join, Ev.writeHead]
         ++ (frags.take failIdx).map Ev.writeFrag
         ++ [Ev.leave, Ev.countBroadcast (a1.removeChan cid).chans.length],
       (a1.removeChan cid).sendCount)
    else
      ([Ev.mkChan, Ev.join, Ev.writeHead]
         ++ frags.map Ev.writeFrag
         ++ [Ev.flush, Ev.countBroadcast a1.chans.length],
       a1.sendCount)
  else ([], a)

/-- Sequential model of the deferred cleanup that runs when the live loop of
`getHandler` exits: `removeChan` then `sendCount`. -/
def App.getHandlerClose (a : App) (cid : Nat) : List Ev × App :=
  ([Ev.leave, Ev.countBroadcast (a.removeChan cid).chans.length],
   (a.removeChan cid).sendCount)

/-- One character of Go `template.HTMLEscapeString`: `<`, `>`, `&`, `'`, `"`
and NUL are replaced, every other character passes through. -/
def escapeChar (c : Char) : String :=
  if c = Char.ofNat 0 then "�"
  else if c = '"' then "&#34;"
  else if c = '\'' then "&#39;"
  else if c = '&' then "&amp;"
  else if c = '<' then "&lt;"
  else if c = '>' then "&gt;"
  else String.singleton c

/-- `template.HTMLEscapeString` over the characters of a string. -/
def escapeList : List Char → List Char
  | [] => []
  | c :: cs => (escapeChar c).data ++ escapeList cs

/-- Go `template.HTMLEscapeString`. -/
def escapeHTML (s : String) : String := String.mk (escapeList s.data)

/-- Go `unicode.IsSpace`, the predicate used by `strings.TrimSpace`. -/
def isSpaceRune (c : Char) : Bool :=
  (9 ≤ c.val && c.val ≤ 13) || c.val = 32 || c.val = 0x85 || c.val = 0xA0
    || c.val = 0x1680 || (0x2000 ≤ c.val && c.val ≤ 0x200A)
    || c.val = 0x2028 || c.val = 0x2029 || c.val = 0x202F
    || c.val = 0x205F || c.val = 0x3000

/-- Go `strings.TrimSpace`: drop `unicode.IsSpace` runes from both ends. -/
def trimSpace (s : String) : String :=
  String.mk (((s.data.dropWhile isSpaceRune).reverse.dropWhile
      isSpaceRune).reverse)

/-- A moment of UTC time, as fed to `time.Now().UTC().Format`. -/
structure UTCTime where
  year : Nat
  month : Nat
  day : Nat
  hour : Nat
  minute : Nat
  second : Nat
deriving DecidableEq

/-- Zero-padding to two digits, as Go layout fields `01 02 15 04 05` do. -/
def pad2 (n : Nat) : String := if n < 10 then "0" ++ toString n else toString n

/-- Zero-padding to four digits, as the Go layout year field `2006` does. -/
def pad4 (n : Nat) : String :=
  if n < 10 then "000" ++ toString n
  else if n < 100 then "00" ++ toString n
  else if n < 1000 then "0" ++ toString n
  else toString n

/-- Go `time.Format("2006-01-02 15:04:05")` on a UTC moment. -/
def formatTimestamp (t : UTCTime) : String :=
  pad4 t.year ++ "-" ++ pad2 t.month ++ "-" ++ pad2 t.day ++ " "
    ++ pad2 t.hour ++ ":" ++ pad2 t.minute ++ ":" ++ pad2 t.second

/-- The only response this core produces. -/
inductive Resp where
  | redirect : Nat → String → Resp
deriving DecidableEq

/-- `App.postHandler`: reject a raw message longer than `maxMsgLen` bytes,
otherwise HTML-escape, trim, and when the result is non-empty stamp it and
`send` it; always redirect to `/` with status 302. -/
def App.postHandler (a : App) (raw : String) (now : UTCTime) : App × Resp :=
  if byteLen raw > maxMsgLen then (a, Resp.redirect 302 "/")
  else
    let msg := trimSpace (escapeHTML raw)
    if byteLen msg > 0 then
      (a.send { timestamp := formatTimestamp now, message := msg },
       Resp.redirect 302 "/")
    else (a, Resp.redirect 302 "/")

/-- An incoming HTTP request, with the oracle data the sequential model
needs (connection identity, flusher support, write-failure point). -/
structure Request where
  method : String
  msg : String
  now : UTCTime
  cid : Nat
  isFlusher : Bool
  fail : Option Nat

/-- `App.handler`: dispatch on the request method; methods other than GET
and POST fall through with no effect. -/
def App.handler (a : App) (r : Request) : App × List Ev × Option Resp :=
  if r.method = "GET" then
    let res := a.getHandlerOpen r.cid r.isFlusher r.fail
    (res.2, res.1, none)
  else if r.method = "POST" then
    let res := a.postHandler r.msg r.now
    (res.1, [], some res.2)
  else (a, [], none)

/-! ### Helper lemmas -/

lemma getD_map_of_lt {α β : Type} (f : α → β) (l : List α) (i : Nat)
    (d : α) (db : β) (h : i < l.length) :
    (l.map f).getD i db = f (l.getD i d) := by
  induction l generalizing i with
  | nil => simp at h
  | cons a l ih =>
    cases i with
    | zero => simp
    | succ i => simpa using ih i (by simpa using h)

lemma pushHistory_window (l : List Update) (u : Update) :
    pushHistory (l.drop (l.length - historyLimit)) u =
      (l ++ [u]).drop (l.length + 1 - historyLimit) := by
  have hH : historyLimit = 20 := rfl
  unfold pushHistory
  simp only [List.length_append, List.length_drop, List.length_cons,
    List.length_nil]
  by_cases h : l.length + 1 ≤ historyLimit
  · rw [if_neg (by omega)]
    have h0 : l.length - historyLimit = 0 := by omega
    have h1 : l.length + 1 - historyLimit = 0 := by omega
    simp [h0, h1]
  · rw [if_pos (by omega)]
    have e1 : l.length - (l.length - historyLimit) + (0 + 1) - historyLimit
        = 1 := by omega
    rw [e1]
    have hlen : 1 ≤ (List.drop (l.length - historyLimit) l).length := by
      rw [List.length_drop]; omega
    rw [List.drop_append_of_le_length hlen, List.drop_drop,
      List.drop_append_of_le_length
        (show l.length + 1 - historyLimit ≤ l.length by omega)]
    congr 2
    omega

lemma foldl_pushHistory (us : List Update) (pre : List Update) :
    us.foldl pushHistory (pre.drop (pre.length - historyLimit)) =
      (pre ++ us).drop ((pre ++ us).length - historyLimit) := by
  induction us generalizing pre with
  | nil => simp
  | cons u us ih =>
    rw [List.foldl_cons, pushHistory_window]
    have h1 : (pre ++ [u]).length = pre.length + 1 := by simp
    have h2 := ih (pre ++ [u])
    rw [h1] at h2
    rw [h2]
    simp [List.append_assoc]

lemma foldl_pushHistory_nil (us : List Update) :
    us.foldl pushHistory [] = us.drop (us.length - historyLimit) := by
  have h := foldl_pushHistory us []
  simpa using h

lemma foldl_append_history (us : List Update) (a : App) :
    (us.foldl App.append a).history = us.foldl pushHistory a.history := by
  induction us generalizing a with
  | nil => rfl
  | cons u us ih => rw [List.foldl_cons, List.foldl_cons, ih]; rfl

/-! ### Claims -/

/-- C1: `send` first appends the update to History, then attempts a
non-blocking enqueue on every registered queue: a queue holding fewer than
`bufferSize` payloads receives exactly one copy of the rendered fragment
(appended at the tail), a full queue receives zero copies, and no queue
other than by this enqueue attempt is touched. -/
theorem broadcast_exactly_once (a : App) (u : Update) :
    (a.send u).history = pushHistory a.history u ∧
    (a.send u).chans.length = a.chans.length ∧
    ∀ i, i < a.chans.length →
      (((a.send u).chans.getD i defConn).buf =
        (if ((a.chans.getD i defConn).buf.length < bufferSize)
         then (a.chans.getD i defConn).buf ++ [renderNew u]
         else (a.chans.getD i defConn).buf)) ∧
      (((a.chans.getD i defConn).buf.length < bufferSize →
        ((a.send u).chans.getD i defConn).buf.count (renderNew u) =
          (a.chans.getD i defConn).buf.count (renderNew u) + 1)) ∧
      ((bufferSize ≤ (a.chans.getD i defConn).buf.length →
        ((a.send u).chans.getD i defConn).buf.count (renderNew u) =
          (a.chans.getD i defConn).buf.count (renderNew u))) := by
  refine ⟨rfl, by simp [App.send, App.append], ?_⟩
  intro i hi
  have hmap : (a.send u).chans =
      a.chans.map (fun c => { c with buf := trySend c.buf (renderNew u) }) := rfl
  rw [hmap, getD_map_of_lt _ _ _ defConn _ hi]
  unfold trySend
  dsimp only
  by_cases hb : ((a.chans.getD i defConn).buf.length < bufferSize)
  · refine ⟨rfl, fun _ => ?_, fun hge => absurd hb (by omega)⟩
    rw [if_pos hb, List.count_append]
    simp
  · exact ⟨rfl, fun hlt => absurd hlt hb, fun _ => by rw [if_neg hb]⟩

/-- Concrete state for the C1 witness: one empty queue and one full queue. -/
def exApp1 : App :=
  { chans := [{ id := 0, buf := [] },
              { id := 1, buf := ["a", "b", "c", "d", "e"] }],
    history := [] }

/-- Witness for C1 at a concrete state: queue 0 is below capacity. -/
theorem broadcast_exactly_once_witness :
    0 < exApp1.chans.length ∧
    ((exApp1.send { timestamp := "t", message := "m" }).chans.getD 0
        defConn).buf =
      (if ((exApp1.chans.getD 0 defConn).buf.length < bufferSize)
       then (exApp1.chans.getD 0 defConn).buf
         ++ [renderNew { timestamp := "t", message := "m" }]
       else (exApp1.chans.getD 0 defConn).buf) :=
  ⟨by decide,
   ((broadcast_exactly_once exApp1 { timestamp := "t", message := "m" }).2.2 0
     (by decide)).1⟩

/-- C2: starting from an empty History, the History length never exceeds
`historyLimit`, and after appending `historyLimit + k` updates (k ≥ 1) the
History is exactly the last `historyLimit` updates in insertion order. -/
theorem history_sliding_window (a : App) (us : List Update)
    (h : a.history = []) :
    (us.foldl App.append a).history.length ≤ historyLimit ∧
    (∀ k, 1 ≤ k → us.length = historyLimit + k →
      (us.foldl App.append a).history = us.drop k) := by
  rw [foldl_append_history, h, foldl_pushHistory_nil]
  constructor
  · rw [List.length_drop]; omega
  · intro k hk hlen
    rw [hlen]
    congr 1
    omega

/-- Concrete update list for the C2 witness: 21 updates. -/
def exUpds2 : List Update :=
  List.replicate 21 { timestamp := "t", message := "m" }

/-- Witness for C2: appending 21 updates to an empty history keeps exactly
the last 20. -/
theorem history_sliding_window_witness :
    (exUpds2.foldl App.append { chans := [], history := [] }).history =
      exUpds2.drop 1 :=
  (history_sliding_window { chans := [], history := [] } exUpds2 rfl).2 1
    (by decide) (by decide)

lemma byteLen_replicate (n : Nat) (c : Char) :
    byteLen (String.mk (List.replicate n c)) = n * c.utf8Size := by
  induction n with
  | zero => simp [byteLen]
  | succ n ih =>
    simp only [byteLen, List.replicate_succ, List.map_cons, List.sum_cons]
    simp only [byteLen] at ih
    rw [ih]
    ring

/-- C4: every POST responds with a 302 redirect to `/`, and a raw message
longer than `maxMsgLen` bytes is a no-op: History and every queue are left
unchanged. -/
theorem post_redirects_rejects_long (a : App) (raw : String)
    (now : UTCTime) :
    (a.postHandler raw now).2 = Resp.redirect 302 "/" ∧
    (maxMsgLen < byteLen raw →
      (a.postHandler raw now).1.history = a.history ∧
      (a.postHandler raw now).1.chans = a.chans) := by
  unfold App.postHandler
  by_cases h : byteLen raw > maxMsgLen
  · rw [if_pos h]
    exact ⟨rfl, fun _ => ⟨rfl, rfl⟩⟩
  · rw [if_neg h]
    dsimp only
    by_cases h2 : byteLen (trimSpace (escapeHTML raw)) > 0
    · rw [if_pos h2]
      exact ⟨rfl, fun hl => absurd hl h⟩
    · rw [if_neg h2]
      exact ⟨rfl, fun _ => ⟨rfl, rfl⟩⟩

/-- A raw message of 1025 bytes, for the C4 witness. -/
def exRaw4 : String := String.mk (List.replicate 1025 'a')

/-- Witness for C4: a 1025-byte message leaves the History unchanged. -/
theorem post_redirects_rejects_long_witness :
    maxMsgLen < byteLen exRaw4 ∧
    (({ chans := [], history := [] } : App).postHandler exRaw4
        { year := 2024, month := 1, day := 2, hour := 3, minute := 4,
          second := 5 }).1.history = ([] : List Update) :=
  have hlen : maxMsgLen < byteLen exRaw4 := by
    rw [exRaw4, byteLen_replicate]; decide
  ⟨hlen,
   ((post_redirects_rejects_long { chans := [], history := [] } exRaw4
      { year := 2024, month := 1, day := 2, hour := 3, minute := 4,
        second := 5 }).2 hlen).1⟩

/-- C5: an accepted post stores and broadcasts exactly the HTML-escaped then
whitespace-trimmed form of the raw input; HTML-special characters come out
escaped, e.g. `<b>hi</b>` becomes the literal text `&lt;b&gt;hi&lt;/b&gt;`. -/
theorem post_escape_then_trim (a : App) (raw : String) (now : UTCTime)
    (hlen : byteLen raw ≤ maxMsgLen)
    (hne : byteLen (trimSpace (escapeHTML raw)) > 0) :
    (a.postHandler raw now).1 =
      a.send { timestamp := formatTimestamp now,
               message := trimSpace (escapeHTML raw) } ∧
    escapeHTML "<b>hi</b>" = "&lt;b&gt;hi&lt;/b&gt;" ∧
    trimSpace "&lt;b&gt;hi&lt;/b&gt;" = "&lt;b&gt;hi&lt;/b&gt;" := by
  refine ⟨?_, by decide, by decide⟩
  unfold App.postHandler
  rw [if_neg (by omega)]
  dsimp only
  rw [if_pos hne]

/-- Witness for C5: posting `<b>hi</b>` stores the escaped, trimmed text. -/
theorem post_escape_then_trim_witness :
    byteLen "<b>hi</b>" ≤ maxMsgLen ∧
    byteLen (trimSpace (escapeHTML "<b>hi</b>")) > 0 ∧
    (({ chans := [], history := [] } : App).postHandler "<b>hi</b>"
        { year := 2024, month := 1, day := 2, hour := 3, minute := 4,
          second := 5 }).1 =
      ({ chans := [], history := [] } : App).send
        { timestamp := formatTimestamp
            { year := 2024, month := 1, day := 2, hour := 3, minute := 4,
              second := 5 },
          message := trimSpace (escapeHTML "<b>hi</b>") } :=
  ⟨by decide, by decide,
   (post_escape_then_trim { chans := [], history := [] } "<b>hi</b>"
      { year := 2024, month := 1, day := 2, hour := 3, minute := 4,
        second := 5 } (by decide) (by decide)).1⟩

/-- C8: a post whose escaped, trimmed form is empty appends nothing to
History and broadcasts nothing: the whole state is unchanged. -/
theorem post_blank_noop (a : App) (raw : String) (now : UTCTime)
    (h : trimSpace (escapeHTML raw) = "") :
    (a.postHandler raw now).1 = a := by
  unfold App.postHandler
  by_cases h1 : byteLen raw > maxMsgLen
  · rw [if_pos h1]
  · rw [if_neg h1]
    dsimp only
    rw [h, if_neg (by decide)]

/-- Witness for C8: posting whitespace leaves the state unchanged. -/
theorem post_blank_noop_witness :
    trimSpace (escapeHTML " \t ") = "" ∧
    (({ chans := [], history := [] } : App).postHandler " \t "
        { year := 2024, month := 1, day := 2, hour := 3, minute := 4,
          second := 5 }).1 = { chans := [], history := [] } :=
  ⟨by decide,
   post_blank_noop { chans := [], history := [] } " \t "
     { year := 2024, month := 1, day := 2, hour := 3, minute := 4,
       second := 5 } (by decide)⟩

/-- C10: a request whose method is neither GET nor POST falls through the
handler: no events, no response, Registry and History unchanged. -/
theorem other_method_frame (a : App) (r : Request)
    (hg : r.method ≠ "GET") (hp : r.method ≠ "POST") :
    a.handler r = (a, [], none) := by
  unfold App.handler
  rw [if_neg hg, if_neg hp]

/-- A PUT request, for the C10 witness. -/
def exReq10 : Request :=
  { method := "PUT", msg := "x",
    now := { year := 2024, month := 1, day := 2, hour := 3, minute := 4,
             second := 5 },
    cid := 0, isFlusher := true, fail := none }

/-- Witness for C10: a PUT request is a complete no-op. -/
theorem other_method_frame_witness :
    exReq10.method ≠ "GET" ∧ exReq10.method ≠ "POST" ∧
    ({ chans := [], history := [] } : App).handler exReq10 =
      ({ chans := [], history := [] }, [], none) :=
  ⟨by decide, by decide,
   other_method_frame { chans := [], history := [] } exReq10 (by decide)
     (by decide)⟩

lemma getHandlerOpen_none (a : App) (cid : Nat) :
    a.getHandlerOpen cid true none =
      ([Ev.mkChan, Ev.join, Ev.writeHead]
        ++ (a.history.map (fun u => Ev.writeFrag (renderHist u)))
        ++ [Ev.flush, Ev.countBroadcast (a.chans.length + 1)],
       (a.addChan { id := cid, buf := [] }).sendCount) := by
  unfold App.getHandlerOpen
  rw [if_pos rfl]
  dsimp only
  rw [if_neg (by simp)]
  unfold App.sendHistory App.addChan
  simp [List.map_map, Function.comp]

lemma getHandlerOpen_take3 (a : App) (cid : Nat) (fail : Option Nat) :
    ((a.getHandlerOpen cid true fail).1).take 3 =
      [Ev.mkChan, Ev.join, Ev.writeHead] := by
  unfold App.getHandlerOpen
  rw [if_pos rfl]
  dsimp only
  by_cases h : (fail.getD (a.addChan { id := cid, buf := [] }).sendHistory.length)
      < (a.addChan { id := cid, buf := [] }).sendHistory.length
  · rw [if_pos h]; simp
  · rw [if_neg h]; simp

/-- C3 (amended): in every execution of the GET handler the connection's
queue is joined to the Registry *before* the history replay: the step
sequence is create queue, join the Registry, write the preamble and the
history fragments, and only then flush and trigger a count rebroadcast. -/
theorem getHandler_join_before_replay (a : App) (cid : Nat)
    (fail : Option Nat) :
    ((a.getHandlerOpen cid true fail).1).take 3 =
      [Ev.mkChan, Ev.join, Ev.writeHead] ∧
    (a.getHandlerOpen cid true none).1 =
      [Ev.mkChan, Ev.join, Ev.writeHead]
        ++ (a.history.map (fun u => Ev.writeFrag (renderHist u)))
        ++ [Ev.flush, Ev.countBroadcast (a.chans.length + 1)] :=
  ⟨getHandlerOpen_take3 a cid fail, by rw [getHandlerOpen_none]⟩

/-- Concrete state for the C3 counterexample: one history entry. -/
def exApp3 : App :=
  { chans := [], history := [{ timestamp := "ts", message := "msg" }] }

/-- C3 counterexample: in the concrete GET-handler trace the join happens
strictly before the preamble write and before the history-fragment write,
so the claim that the queue joins only after the replay is false. -/
theorem getHandler_joins_first_cex :
    (exApp3.getHandlerOpen 7 true none).1.indexOf Ev.join <
      (exApp3.getHandlerOpen 7 true none).1.indexOf Ev.writeHead ∧
    (exApp3.getHandlerOpen 7 true none).1.indexOf Ev.join <
      (exApp3.getHandlerOpen 7 true none).1.indexOf
        (Ev.writeFrag
          (renderHist { timestamp := "ts", message := "msg" })) := by
  constructor
  · decide
  · decide

/-- The count-update fragment format exactly as the spec states it. -/
def specCountFragment (n : Nat) : String :=
  "<style>#nc::before\x7bcontent:\"" ++ toString n ++ "\"\x7d</style>"

/-- C7: every count fragment is exactly
`<style>#nc::before{content:"N"}</style>` with N the Registry size at the
moment `sendCount` runs; the GET handler triggers a count rebroadcast
carrying the post-join size as the last step before its live loop, and the
cleanup path is a leave followed by a count rebroadcast carrying the
post-leave size. -/
theorem count_broadcast_spec (a : App) (cid : Nat) :
    (∀ n : Nat, countData n = specCountFragment n) ∧
    (a.sendCount).chans = a.chans.map (fun c =>
      { c with buf := trySend c.buf (countData a.chans.length) }) ∧
    ((a.getHandlerOpen cid true none).1).getLast? =
      some (Ev.countBroadcast (a.chans.length + 1)) ∧
    (a.getHandlerClose cid).1 =
      [Ev.leave, Ev.countBroadcast ((a.removeChan cid).chans.length)] := by
  refine ⟨fun n => rfl, rfl, ?_, rfl⟩
  rw [getHandlerOpen_none]
  dsimp only
  have hsplit :
      [Ev.mkChan, Ev.join, Ev.writeHead]
          ++ (a.history.map (fun u => Ev.writeFrag (renderHist u)))
          ++ [Ev.flush, Ev.countBroadcast (a.chans.length + 1)] =
        ([Ev.mkChan, Ev.join, Ev.writeHead]
          ++ (a.history.map (fun u => Ev.writeFrag (renderHist u)))
          ++ [Ev.flush]) ++ [Ev.countBroadcast (a.chans.length + 1)] := by
    simp
  rw [hsplit, List.getLast?_concat]

/-- The new-message fragment format without any UTC suffix. -/
def specNewFragment (m ts : String) : String :=
  "<div class=\"new\"><p>" ++ m ++ "</p><time>" ++ ts ++ "</time></div>"

/-- The history fragment format: the same without the `class="new"`
attribute. -/
def specHistFragment (m ts : String) : String :=
  "<div><p>" ++ m ++ "</p><time>" ++ ts ++ "</time></div>"

/-- The new-message fragment format exactly as the claim states it, with a
` UTC` suffix inside the `<time>` element. -/
def claimNewFragment (m ts : String) : String :=
  "<div class=\"new\"><p>" ++ m ++ "</p><time>" ++ ts ++ " UTC</time></div>"

/-- Concrete state for the C6 counterexample: one connection, no history. -/
def exApp6 : App := { chans := [{ id := 0, buf := [] }], history := [] }

/-- Concrete post time for the C6 counterexample. -/
def exTime6 : UTCTime :=
  { year := 2024, month := 5, day := 6, hour := 7, minute := 8, second := 9 }

/-- C6 counterexample: the fragment actually enqueued for a concrete post
carries the bare `2024-05-06 07:08:09` timestamp, which differs from the
claimed fragment with the ` UTC` suffix. -/
theorem fragment_no_utc_cex :
    ((exApp6.postHandler "hi" exTime6).1.chans.getD 0 defConn).buf =
      ["<div class=\"new\"><p>hi</p><time>2024-05-06 07:08:09</time></div>"] ∧
    "<div class=\"new\"><p>hi</p><time>2024-05-06 07:08:09</time></div>" ≠
      claimNewFragment "hi" "2024-05-06 07:08:09" := by
  constructor
  · decide
  · decide

/-- C6 (amended): every broadcast new-message fragment is exactly
`<div class="new"><p>{message}</p><time>{timestamp}</time></div>` and every
replayed history fragment is the same string without the `class="new"`
attribute; the timestamp carries no ` UTC` suffix. -/
theorem fragment_formats (u : Update) (a : App) :
    renderNew u = specNewFragment u.message u.timestamp ∧
    renderHist u = specHistFragment u.message u.timestamp ∧
    (a.send u).chans = a.chans.map (fun c =>
      { c with buf := trySend c.buf (specNewFragment u.message u.timestamp) }) ∧
    a.sendHistory = a.history.map (fun v =>
      specHistFragment v.message v.timestamp) := ⟨rfl, rfl, rfl, rfl⟩

lemma dropWhile_eq_self_of_all_false {α : Type} (p : α → Bool) (l : List α)
    (h : ∀ c ∈ l, p c = false) : l.dropWhile p = l := by
  cases l with
  | nil => rfl
  | cons a l =>
    rw [List.dropWhile_cons, h a (by simp)]
    simp

lemma trimSpace_eq_self (s : String)
    (h : ∀ c ∈ s.data, isSpaceRune c = false) : trimSpace s = s := by
  unfold trimSpace
  rw [dropWhile_eq_self_of_all_false _ _ h,
    dropWhile_eq_self_of_all_false _ _
      (fun c hc => h c (List.mem_reverse.mp hc)),
    List.reverse_reverse]

lemma escapeList_repl_lt (n : Nat) :
    ((escapeList (List.replicate n '<')).map Char.utf8Size).sum = 4 * n ∧
    ∀ c ∈ escapeList (List.replicate n '<'), isSpaceRune c = false := by
  induction n with
  | zero =>
    exact ⟨rfl, fun c hc => by simp [escapeList] at hc⟩
  | succ n ih =>
    have hstep : escapeList (List.replicate (n + 1) '<')
        = '&' :: 'l' :: 't' :: ';' :: escapeList (List.replicate n '<') := by
      rw [List.replicate_succ]
      rfl
    constructor
    · rw [hstep]
      simp only [List.map_cons, List.sum_cons]
      rw [ih.1]
      have h1 : ('&').utf8Size = 1 := by decide
      have h2 : ('l').utf8Size = 1 := by decide
      have h3 : ('t').utf8Size = 1 := by decide
      have h4 : (';').utf8Size = 1 := by decide
      omega
    · rw [hstep]
      intro c hc
      simp only [List.mem_cons] at hc
      rcases hc with h | h | h | h | h
      · rw [h]; decide
      · rw [h]; decide
      · rw [h]; decide
      · rw [h]; decide
      · exact ih.2 c h

/-- C9: the `maxMsgLen` check runs on the raw bytes before escaping, so a
raw message of 1024 `<` characters is accepted, yet its escaped, trimmed
stored form is 4096 bytes long — past `maxMsgLen` — and is stored and
broadcast. -/
theorem escape_can_exceed_limit :
    ∃ raw : String, byteLen raw ≤ maxMsgLen ∧
      maxMsgLen < byteLen (trimSpace (escapeHTML raw)) ∧
      ∀ (a : App) (now : UTCTime),
        (a.postHandler raw now).1 =
          a.send { timestamp := formatTimestamp now,
                   message := trimSpace (escapeHTML raw) } := by
  have hM : maxMsgLen = 1024 := rfl
  have hs := escapeList_repl_lt 1024
  have ht : trimSpace (escapeHTML (String.mk (List.replicate 1024 '<'))) =
      escapeHTML (String.mk (List.replicate 1024 '<')) :=
    trimSpace_eq_self _ (fun c hc => hs.2 c hc)
  have hb : byteLen
      (trimSpace (escapeHTML (String.mk (List.replicate 1024 '<')))) =
        4096 := by
    rw [ht]
    show byteLen (String.mk (escapeList (List.replicate 1024 '<'))) = 4096
    unfold byteLen
    rw [show (String.mk (escapeList (List.replicate 1024 '<'))).data
        = escapeList (List.replicate 1024 '<') from rfl, hs.1]
  have hraw : byteLen (String.mk (List.replicate 1024 '<')) = 1024 := by
    rw [byteLen_replicate]
    decide
  refine ⟨String.mk (List.replicate 1024 '<'), by omega, by omega, ?_⟩
  intro a now
  unfold App.postHandler
  rw [if_neg (by omega)]
  dsimp only
  rw [if_pos (by omega)]
